import Mathlib

/-!
Verification of the image2code live-preview execution engine.

Shallow embedding of:
- `src/components/PreviewWindow.tsx` — the sandboxed iframe (Isolation
  Boundary), the per-cycle `run` script (normalize → Babel transpile →
  blob-URL module load → default-export lookup → mount), and its top-level
  `try/catch` error reporter;
- the host application component (`src/unnamed/part_001`) — `handleRefine`
  and the `[code]`-keyed effect that rebuilds the iframe document;
- the model-service response cleanup (`src/unnamed/part_000`) —
  markdown-fence stripping and trimming in `generateCodeFromImage` /
  `refineCode`.
-/

namespace Image2Code

/-! ### Generic character-list utilities (JS string/regex primitives) -/

/-- The character class of JavaScript `\s` (also the set removed by
`String.prototype.trim`): WhiteSpace ∪ LineTerminator. -/
def isJsSpace (c : Char) : Bool :=
  c = ' ' || c = '\t' || c = '\n' || c = '\r' || c = '\x0b' || c = '\x0c' ||
  c = '\u00A0' || c = '\u1680' || ('\u2000' ≤ c && c ≤ '\u200A') ||
  c = '\u2028' || c = '\u2029' || c = '\u202F' || c = '\u205F' ||
  c = '\u3000' || c = '\uFEFF'

/-- Does `pat` occur as a contiguous substring of `l`?  (JS `RegExp.test`
with a literal pattern.) -/
def occursIn (pat : List Char) : List Char → Bool
  | [] => pat.isPrefixOf []
  | c :: rest => pat.isPrefixOf (c :: rest) || occursIn pat rest

/-! ### Source Normalizer (`PreviewWindow.tsx` lines 67–72)

The `run` script tests `codeToCompile.match(/import\s+(\*\s+as\s+)?React/)`
and, when the pattern is absent, prepends `"import React from 'react';\n"`.
The regex is embedded as an executable matcher: literal chunks, `\s+` as
one-or-more JS whitespace, and the optional group `(\*\s+as\s+)?`.
(Maximal munch for `\s+` is equivalent to backtracking here because every
continuation of the pattern starts with a non-whitespace character.) -/

/-- Consume the literal characters `ps` from the front of `l`. -/
def dropLit : List Char → List Char → Option (List Char)
  | [], l => some l
  | _ :: _, [] => none
  | p :: ps, c :: cs => if c = p then dropLit ps cs else none

/-- Consume one or more JS-whitespace characters (`\s+`). -/
def dropWs1 : List Char → Option (List Char)
  | [] => none
  | c :: cs => if isJsSpace c then some (cs.dropWhile isJsSpace) else none

/-- Does `/import\s+(\*\s+as\s+)?React/` match at the head of `l`? -/
def matchReactAt (l : List Char) : Bool :=
  match dropLit "import".toList l with
  | none => false
  | some r1 =>
    match dropWs1 r1 with
    | none => false
    | some r2 =>
      (dropLit "React".toList r2).isSome ||
      (match dropLit ['*'] r2 with
       | none => false
       | some r3 =>
         match dropWs1 r3 with
         | none => false
         | some r4 =>
           match dropLit "as".toList r4 with
           | none => false
           | some r5 =>
             match dropWs1 r5 with
             | none => false
             | some r6 => (dropLit "React".toList r6).isSome)

/-- Does `/import\s+(\*\s+as\s+)?React/` match anywhere in `l`?
(JS `String.prototype.match` used as a boolean test.) -/
def searchReact : List Char → Bool
  | [] => false
  | c :: t => matchReactAt (c :: t) || searchReact t

/-- The canonical import statement prepended by the normalizer
(`"import React from 'react';\n"`). -/
def reactImportStmt : String := "import React from \x27react\x27;\n"

/-- Lines 70–72 of `PreviewWindow.tsx`: prepend the canonical React import
unless the regex already matches somewhere in the source. -/
def normalizeSource (s : String) : String :=
  if searchReact s.toList then s else reactImportStmt ++ s

/-! ### Isolation Boundary (`PreviewWindow.tsx` lines 139–145)

The preview iframe is rendered with `srcDoc={srcDoc}` and the literal
attribute `sandbox="allow-scripts allow-same-origin"`. -/

/-- The literal `sandbox` attribute placed on the preview iframe. -/
def sandboxAttr : String := "allow-scripts allow-same-origin"

/-- The sandbox flag tokens of `sandboxAttr` (space-separated). -/
def sandboxTokens : List String := ["allow-scripts", "allow-same-origin"]

/-- The sandbox permits script execution. -/
def permitsScripts : Bool := sandboxTokens.contains "allow-scripts"

/-- The sandbox denies the framed document same-origin privileges, i.e. the
`allow-same-origin` token is absent. -/
def deniesSameOrigin : Bool := !(sandboxTokens.contains "allow-same-origin")

/-! ### The per-cycle `run` script (`PreviewWindow.tsx` lines 63–115)

The script body is one guarded region (`try { ... } catch (err) { ... }`).
External effects — `Babel.transform`, `await import(url)` (module
evaluation), and `createRoot(...).render(...)` — are abstracted as an
environment of fallible functions; a thrown JS error is an `Except.error`
carrying `err.message`. -/

/-- An entry component value (opaque to the engine). -/
abbrev Component := Nat

/-- A loaded ES module, as the script observes it: `module.default`. -/
structure JsModule where
  defaultExport : Option Component
deriving DecidableEq

/-- The external operations the `run` script calls. -/
structure Env where
  /-- `Babel.transform(code, ...)`: compiled code, or a parse-error message. -/
  babelTransform : String → Except String String
  /-- `await import(url)` of the blob URL holding the compiled code:
  the evaluated module, or a load/evaluation-error message. -/
  importModule : String → Except String JsModule
  /-- `createRoot(root).render(React.createElement(App))`: unit, or a
  mount-error message. -/
  renderComponent : Component → Except String Unit

/-- Error message thrown at line 95 when `module.default` is absent. -/
def missingDefaultExportMsg : String :=
  "The generated code does not have a default export. Please ensure the component is exported as default."

/-- Error-panel HTML before the interpolated `err.message` (lines 104–107). -/
def panelPre : String :=
  "\n                  <div style=\"padding: 20px; color: #000; font-family: sans-serif; background: #FF6B6B; height: 100vh; border: 4px solid black;\">\n                    <h1 style=\"font-weight: 900; text-transform: uppercase;\">Preview Error</h1>\n                    <pre style=\"white-space: pre-wrap; background: white; border: 2px solid black; padding: 10px;\">"

/-- Error-panel HTML after the interpolated `err.message` (lines 107–111). -/
def panelPost : String :=
  "</pre>\n                    <br/>\n                    <em>Check the console for more details.</em>\n                  </div>\n                "

/-- The DiagnosticReport: the HTML assigned to `document.body.innerHTML`
in the `catch` block, with `err.message` interpolated verbatim. -/
def errorPanel (msg : String) : String := panelPre ++ msg ++ panelPost

/-- Side effects of one execution of the guarded body, accumulated up to the
point where it returned or threw. -/
structure BodyInfo where
  /-- Number of `URL.createObjectURL` calls performed (line 86). -/
  urlsCreated : Nat
  /-- Number of `URL.revokeObjectURL` calls performed (none exist in the
  source). -/
  urlsRevoked : Nat
  /-- Whether the mount step (lines 99–100) was reached. -/
  mountAttempted : Bool
deriving DecidableEq

/-- The `try` body of `run` (lines 64–101): normalize, transpile, create the
blob URL, import, fetch `module.default`, mount.  Returns the accumulated
side effects together with either success or the thrown error message. -/
def tryBody (env : Env) (userCode : String) : BodyInfo × Except String Unit :=
  let codeToCompile := normalizeSource userCode
  match env.babelTransform codeToCompile with
  | .error e => (⟨0, 0, false⟩, .error e)
  | .ok compiled =>
    -- const blob = new Blob([compiledResult.code]); const url = URL.createObjectURL(blob);
    match env.importModule compiled with
    | .error e => (⟨1, 0, false⟩, .error e)
    | .ok m =>
      match m.defaultExport with
      | none => (⟨1, 0, false⟩, .error missingDefaultExportMsg)
      | some app =>
        match env.renderComponent app with
        | .error e => (⟨1, 0, true⟩, .error e)
        | .ok _ => (⟨1, 0, true⟩, .ok ())

/-- Outcome of one preview cycle inside the sandboxed document: either the
app was rendered, or the document body was replaced by a diagnostic panel. -/
inductive RunOutcome where
  | rendered : RunOutcome
  | diagnostic : String → RunOutcome
deriving DecidableEq

/-- Result of one preview cycle. -/
structure CycleResult where
  outcome : RunOutcome
  urlsCreated : Nat
  urlsRevoked : Nat
  mountAttempted : Bool
deriving DecidableEq

/-- The whole `run` function (lines 63–113): the guarded body, with every
thrown error caught and converted to the error panel rendered inside the
sandboxed document (`document.body.innerHTML = ...`).  `run` is a total
function: no failure escapes to the host. -/
def run (env : Env) (userCode : String) : CycleResult :=
  match tryBody env userCode with
  | (info, .ok _) => ⟨.rendered, info.urlsCreated, info.urlsRevoked, info.mountAttempted⟩
  | (info, .error e) =>
    ⟨.diagnostic (errorPanel e), info.urlsCreated, info.urlsRevoked, info.mountAttempted⟩


/-- A concrete environment in which every stage succeeds. -/
def envOk : Env :=
  { babelTransform := fun s => Except.ok s
    importModule := fun _ => Except.ok ⟨some 0⟩
    renderComponent := fun _ => Except.ok () }

/-- A concrete environment in which the transpiler raises a parse error. -/
def envParse : Env :=
  { babelTransform := fun _ => Except.error "SyntaxError: Unexpected token (1:1)"
    importModule := fun _ => Except.ok ⟨some 0⟩
    renderComponent := fun _ => Except.ok () }

/-- A concrete environment whose loaded module has no default export. -/
def envNoDefault : Env :=
  { babelTransform := fun s => Except.ok s
    importModule := fun _ => Except.ok ⟨none⟩
    renderComponent := fun _ => Except.ok () }

/-! ### Host-side cycle management

`PreviewWindow`'s `useEffect` (lines 11–121) rebuilds the whole iframe
document (`srcDoc`) and re-runs only when the `code` prop changes — React
compares the `[code]` dependency array by value.  Replacing `srcDoc`
navigates the iframe: the previous sandboxed document is destroyed together
with its blob-URL store and any still-pending continuation of its `run`
script; a pending continuation can therefore only ever write into the
document of the cycle that started it.  This is embedded as a small
transition system: `submit` is a change of the `code` prop, `complete` is
the arrival of a cycle's asynchronous result, tagged with the identity of
the document whose script awaited it. -/

/-- One sandboxed iframe document (a RenderTarget). -/
structure SandboxDoc where
  /-- Identity of this document: documents are never reused. -/
  docId : Nat
  /-- The SourceDocument this document's `run` script executes. -/
  source : String
  /-- What the document's script has mounted into `#root` so far. -/
  mounted : Option String
  /-- Blob-URL locators created by this document's script and never revoked
  (at most one per document: `run` executes once per document and calls
  `URL.createObjectURL` at most once, on the path where transpilation
  succeeded). -/
  urlsLive : Nat
deriving DecidableEq

/-- The host's view: the iframe holds at most one live document. -/
structure HostState where
  nextId : Nat
  current : Option SandboxDoc
deriving DecidableEq

/-- Events driving the preview engine from the host side. -/
inductive HostEvent where
  /-- The `code` prop changed (or was first supplied): `useEffect` runs,
  `setSrcDoc` replaces the iframe document. -/
  | submit : String → HostEvent
  /-- The asynchronous part of the cycle running in document `docId`
  resolves with rendered output `out`. -/
  | complete : Nat → String → HostEvent
deriving DecidableEq

/-- Host transition.  `submit src` is a no-op when the current document
already runs `src` (React skips the effect: the `[code]` dependency is
unchanged); otherwise the iframe is rebuilt from scratch with a fresh
document whose script will create one blob URL.  `complete id out` mounts
`out` in the document that awaited it — if that document is still the live
one; a stale completion finds its document gone and is discarded. -/
def hostStep (s : HostState) : HostEvent → HostState
  | .submit src =>
    match s.current with
    | some d =>
      if d.source = src then s
      else ⟨s.nextId + 1, some ⟨s.nextId, src, none, 1⟩⟩
    | none => ⟨s.nextId + 1, some ⟨s.nextId, src, none, 1⟩⟩
  | .complete docId out =>
    match s.current with
    | some d =>
      if d.docId = docId then ⟨s.nextId, some { d with mounted := some out }⟩
      else s
    | none => s

/-- Initial host state: no preview yet. -/
def initState : HostState := ⟨0, none⟩

/-- Run a sequence of host events from the initial state. -/
def runEvents (evs : List HostEvent) : HostState := evs.foldl hostStep initState

/-- Source of the currently displayed document. -/
def currentSource (s : HostState) : Option String := s.current.map SandboxDoc.source

/-- Identity of the currently displayed document. -/
def currentDocId (s : HostState) : Option Nat := s.current.map SandboxDoc.docId

/-- Mounted content of the currently displayed document. -/
def currentMounted (s : HostState) : Option (Option String) :=
  s.current.map SandboxDoc.mounted

/-- Number of live (undisposed) blob-URL locators across the whole host:
only the current document's; destroyed documents take their URL store with
them. -/
def liveLocators (s : HostState) : Nat :=
  match s.current with
  | some d => d.urlsLive
  | none => 0

/-! ### Model-service response cleanup (`src/unnamed/part_000`)

Both `generateCodeFromImage` (lines 89–96) and `refineCode` (lines 145–150)
post-process the model text identically:

  `text.replace(/```tsx/g, '').replace(/```javascript/g, '').replace(/```/g, '').trim()`

with `text = response.text || ""`. -/

/-- The backtick character. -/
def backtick : Char := '\x60'

/-- JS `s.replace(/pat/g, '')` for a literal, non-empty pattern `p :: ps`:
scan left to right, deleting each non-overlapping occurrence and continuing
after it. -/
def stripSub (p : Char) (ps : List Char) : List Char → List Char
  | [] => []
  | c :: rest =>
    if (p :: ps).isPrefixOf (c :: rest) then stripSub p ps (rest.drop ps.length)
    else c :: stripSub p ps rest
termination_by l => l.length
decreasing_by
  · simpa using Nat.lt_succ_of_le (Nat.sub_le rest.length ps.length)
  · simp

/-- JS `s.replace(/pat/g, '')` with the pattern given as a string. -/
def replaceAllStr (pat : String) (l : List Char) : List Char :=
  match pat.toList with
  | [] => l
  | p :: ps => stripSub p ps l

/-- JS `String.prototype.trim`: drop JS whitespace from both ends. -/
def jsTrim (l : List Char) : List Char :=
  (((l.dropWhile isJsSpace).reverse).dropWhile isJsSpace).reverse

/-- The markdown fence `` ```tsx `` . -/
def fenceTsx : String := "\x60\x60\x60tsx"

/-- The markdown fence `` ```javascript `` . -/
def fenceJs : String := "\x60\x60\x60javascript"

/-- The bare markdown fence `` ``` `` . -/
def fence : String := "\x60\x60\x60"

/-- The cleanup expression applied to the model text in both service
functions. -/
def cleanModelText (text : String) : String :=
  String.mk (jsTrim (replaceAllStr fence
    (replaceAllStr fenceJs (replaceAllStr fenceTsx text.toList))))

/-- The binding `const text = response.text || ""` followed by the cleanup: the code
string the service returns (`response.text` may be absent). -/
def extractCode (respText : Option String) : String :=
  cleanModelText (match respText with
    | none => ""
    | some t => if t = "" then "" else t)

/-- Boolean check: first character (if any) is not JS whitespace and last
character (if any) is not JS whitespace. -/
def isTrimmed (l : List Char) : Bool :=
  (match l.head? with
   | some c => !isJsSpace c
   | none => true) &&
  (match l.getLast? with
   | some c => !isJsSpace c
   | none => true)

/-! ### Host application state and `handleRefine` (`src/unnamed/part_001`) -/

/-- The `AppStatus` enumeration from `types.ts`. -/
inductive AppStatus where
  | IDLE | ANALYZING | GENERATING | COMPLETED | ERROR
deriving DecidableEq

/-- The `App` component's state hooks that `handleRefine` touches. -/
structure AppState where
  status : AppStatus
  generatedCode : String
  refinementPrompt : String
  uploadedImage : Option String
deriving DecidableEq

/-- Net effect of one `handleRefine` call (lines 43–61), given the result of
the awaited `refineCode` promise.  Guard: an all-whitespace prompt returns
immediately.  On success the new code is stored, the prompt cleared and the
status set to `COMPLETED`; on rejection only the status is set back to
`COMPLETED` (the transient `GENERATING` status set before the `await` is
overwritten either way). -/
def handleRefine (s : AppState) (result : Except String String) : AppState :=
  if (jsTrim s.refinementPrompt.toList).isEmpty then s
  else
    match result with
    | .ok newCode =>
      { s with generatedCode := newCode, refinementPrompt := "", status := AppStatus.COMPLETED }
    | .error _ => { s with status := AppStatus.COMPLETED }


/-! ## Shared lemmas -/

/-- Characters of the `"import"` literal. -/
theorem importChars : "import".toList = ['i', 'm', 'p', 'o', 'r', 't'] := by decide

/-- Characters of the `"React"` literal. -/
theorem reactChars : "React".toList = ['R', 'e', 'a', 'c', 't'] := by decide

/-- Characters of the canonical import statement. -/
theorem stmtChars : reactImportStmt.toList =
    'i' :: 'm' :: 'p' :: 'o' :: 'r' :: 't' :: ' ' :: 'R' :: 'e' :: 'a' :: 'c' :: 't' ::
    ' ' :: 'f' :: 'r' :: 'o' :: 'm' :: ' ' :: '\x27' :: 'r' :: 'e' :: 'a' :: 'c' :: 't' ::
    '\x27' :: ';' :: '\n' :: [] := by decide

/-- The regex matches at position 0 of any source that starts with the
canonical import statement. -/
theorem searchReact_prepend (l : List Char) :
    searchReact (reactImportStmt.toList ++ l) = true := by
  rw [stmtChars]
  simp [searchReact, matchReactAt, dropLit, dropWs1, importChars, reactChars,
    isJsSpace, List.dropWhile]

/-- Invariant of the host model: the live document's identity is below the
next-identity counter. -/
def docIdBound (s : HostState) : Prop := ∀ d, s.current = some d → d.docId < s.nextId

theorem docIdBound_step (s : HostState) (e : HostEvent) (h : docIdBound s) :
    docIdBound (hostStep s e) := by
  cases e with
  | submit src =>
    cases hc : s.current with
    | none =>
      simp only [hostStep, hc]
      intro d hd
      simp only [Option.some.injEq] at hd
      subst hd
      simp
    | some d0 =>
      simp only [hostStep, hc]
      by_cases hsrc : d0.source = src
      · simpa only [if_pos hsrc] using h
      · simp only [if_neg hsrc]
        intro d hd
        simp only [Option.some.injEq] at hd
        subst hd
        simp
  | complete id out =>
    cases hc : s.current with
    | none => simpa only [hostStep, hc] using h
    | some d0 =>
      simp only [hostStep, hc]
      by_cases hid : d0.docId = id
      · simp only [if_pos hid]
        intro d hd
        simp only [Option.some.injEq] at hd
        subst hd
        simpa using h d0 hc
      · simpa only [if_neg hid] using h

theorem docIdBound_runEvents (evs : List HostEvent) : docIdBound (runEvents evs) := by
  suffices hgen : ∀ s, docIdBound s → docIdBound (evs.foldl hostStep s) by
    refine hgen initState ?_
    intro d hd
    simp [initState] at hd
  induction evs with
  | nil => intro s hs; exact hs
  | cons e t ih => intro s hs; exact ih (hostStep s e) (docIdBound_step s e hs)

/-- After submitting `src`, the live document runs `src` and its identity is
below the new counter. -/
theorem submit_shape (s : HostState) (src : String) (h : docIdBound s) :
    ∃ n1 d1, hostStep s (HostEvent.submit src) = ⟨n1, some d1⟩ ∧
      d1.source = src ∧ d1.docId < n1 := by
  cases hc : s.current with
  | none =>
    exact ⟨s.nextId + 1, ⟨s.nextId, src, none, 1⟩, by simp [hostStep, hc], rfl, by simp⟩
  | some d0 =>
    by_cases hsrc : d0.source = src
    · refine ⟨s.nextId, d0, ?_, hsrc, h d0 hc⟩
      rw [show hostStep s (HostEvent.submit src) = s by simp [hostStep, hc, hsrc], ← hc]
    · exact ⟨s.nextId + 1, ⟨s.nextId, src, none, 1⟩, by simp [hostStep, hc, hsrc], rfl, by simp⟩

/-- Submitting a source different from the live document's rebuilds the
iframe with a fresh document. -/
theorem hostStep_submit_new (s : HostState) (src : String)
    (h : currentSource s ≠ some src) :
    hostStep s (HostEvent.submit src) =
      ⟨s.nextId + 1, some ⟨s.nextId, src, none, 1⟩⟩ := by
  cases hc : s.current with
  | none => simp [hostStep, hc]
  | some d0 =>
    have hne : ¬ d0.source = src := by
      intro he
      exact h (by simp [currentSource, hc, he])
    simp [hostStep, hc, hne]

/-- Occurrence of a pattern is preserved by appending on the left. -/
theorem occursIn_append_right (pat a r : List Char) (h : occursIn pat r = true) :
    occursIn pat (a ++ r) = true := by
  induction a with
  | nil => simpa using h
  | cons c a' ih =>
    simp only [List.cons_append, occursIn, Bool.or_eq_true]
    exact Or.inr ih

/-- Occurrence of a pattern is preserved by appending on the right. -/
theorem occursIn_append_left (pat a b : List Char) (h : occursIn pat a = true) :
    occursIn pat (a ++ b) = true := by
  induction a with
  | nil =>
    simp only [occursIn] at h
    have hp : pat = [] := by
      cases pat with
      | nil => rfl
      | cons p ps => simp [List.isPrefixOf] at h
    subst hp
    cases b with
    | nil => simp [occursIn, List.isPrefixOf]
    | cons x xs => simp [occursIn, List.isPrefixOf]
  | cons c a' ih =>
    simp only [occursIn, Bool.or_eq_true] at h
    rcases h with h | h
    · simp only [List.cons_append, occursIn, Bool.or_eq_true]
      left
      rw [ List.isPrefixOf_iff_prefix] at h ⊢
      exact h.trans ( List.prefix_append (c :: a') b)
    · simp only [List.cons_append, occursIn, Bool.or_eq_true]
      exact Or.inr (ih h)

/-- Fence removal never turns a source that does not start with two
backticks into one that does. -/
theorem stripSub_keeps_nondouble (m : List Char)
    (h : [backtick, backtick].isPrefixOf m = false) :
    [backtick, backtick].isPrefixOf (stripSub backtick [backtick, backtick] m) = false := by
  cases m with
  | nil => simp [stripSub, List.isPrefixOf]
  | cons d m' =>
    by_cases hd : d = backtick
    · subst hd
      cases m' with
      | nil =>
        rw [stripSub, if_neg (by simp [List.isPrefixOf])]
        simp [stripSub, List.isPrefixOf]
      | cons e m'' =>
        have he : ¬ e = backtick := by
          intro hcon
          subst hcon
          simp [List.isPrefixOf] at h
        rw [stripSub, if_neg (by
          simp [List.isPrefixOf, he]
          intro hcon
          exact absurd hcon.symm he)]
        rw [stripSub, if_neg (by
          simp [List.isPrefixOf]
          intro hcon
          exact absurd hcon.symm he)]
        simp [List.isPrefixOf]
        intro hcon
        exact absurd hcon.symm he
    · rw [stripSub, if_neg (by simp [List.isPrefixOf]; intro hcon; exact absurd hcon.symm hd)]
      simp [List.isPrefixOf]
      intro hcon
      exact absurd hcon.symm hd

/-- After removing every (left-to-right, non-overlapping) occurrence of
three backticks, no three consecutive backticks remain. -/
theorem stripSub_noFence_aux (n : Nat) : ∀ l : List Char, l.length ≤ n →
    occursIn [backtick, backtick, backtick] (stripSub backtick [backtick, backtick] l) = false := by
  induction n with
  | zero =>
    intro l hl
    have hnil : l = [] := List.eq_nil_of_length_eq_zero (Nat.le_zero.mp hl)
    subst hnil
    simp [stripSub, occursIn, List.isPrefixOf]
  | succ n ih =>
    intro l hl
    cases l with
    | nil => simp [stripSub, occursIn, List.isPrefixOf]
    | cons c rest =>
      simp only [List.length_cons, Nat.succ_le_succ_iff] at hl
      by_cases hpre : [backtick, backtick, backtick].isPrefixOf (c :: rest) = true
      · rw [stripSub, if_pos hpre]
        refine ih _ ?_
        simp only [List.length_cons, List.length_nil, List.length_drop]
        omega
      · rw [stripSub, if_neg hpre]
        have hR := ih rest hl
        simp only [occursIn, Bool.or_eq_false_iff]
        refine ⟨?_, hR⟩
        by_cases hc : c = backtick
        · subst hc
          have hrest : [backtick, backtick].isPrefixOf rest = false := by
            by_contra hcon
            simp only [Bool.not_eq_false] at hcon
            refine hpre ?_
            simp [List.isPrefixOf] at hcon ⊢
            exact hcon
          have hkeep := stripSub_keeps_nondouble rest hrest
          simp [List.isPrefixOf] at hkeep ⊢
          exact hkeep
        · simp [List.isPrefixOf]
          intro hcon
          exact absurd hcon.symm hc

theorem stripSub_noFence (l : List Char) :
    occursIn [backtick, backtick, backtick] (stripSub backtick [backtick, backtick] l) = false :=
  stripSub_noFence_aux l.length l le_rfl

/-- Trimming cannot create an occurrence: the trimmed list is an infix. -/
theorem occursIn_jsTrim (pat l : List Char) (h : occursIn pat (jsTrim l) = true) :
    occursIn pat l = true := by
  unfold jsTrim at h
  obtain ⟨u, hu⟩ := List.dropWhile_suffix (l := (List.dropWhile isJsSpace l).reverse) isJsSpace
  obtain ⟨w, hw⟩ := List.dropWhile_suffix (l := l) isJsSpace
  have ht1 : List.dropWhile isJsSpace l =
      (List.dropWhile isJsSpace (List.dropWhile isJsSpace l).reverse).reverse ++ u.reverse := by
    have := congrArg List.reverse hu
    simpa [List.reverse_append] using this.symm
  have h1 : occursIn pat (List.dropWhile isJsSpace l) = true := by
    rw [ht1]
    exact occursIn_append_left _ _ _ h
  rw [← hw]
  exact occursIn_append_right _ _ _ h1

/-- The head surviving `dropWhile p` does not satisfy `p`. -/
theorem dropWhile_head_not (p : Char → Bool) (l : List Char) (c : Char)
    (h : (l.dropWhile p).head? = some c) : p c = false := by
  induction l with
  | nil => simp at h
  | cons a t ih =>
    by_cases ha : p a = true
    · rw [List.dropWhile_cons_of_pos ha] at h
      exact ih h
    · rw [List.dropWhile_cons_of_neg ha] at h
      simp only [List.head?_cons, Option.some.injEq] at h
      subst h
      simpa using ha

/-- Trimming leaves no whitespace at either end. -/
theorem isTrimmed_jsTrim (l : List Char) : isTrimmed (jsTrim l) = true := by
  cases hj : jsTrim l with
  | nil => simp [isTrimmed]
  | cons c rest =>
    have hhead : isJsSpace c = false := by
      obtain ⟨u, hu⟩ := List.dropWhile_suffix (l := (List.dropWhile isJsSpace l).reverse) isJsSpace
      have ht1 : List.dropWhile isJsSpace l =
          (List.dropWhile isJsSpace (List.dropWhile isJsSpace l).reverse).reverse ++ u.reverse := by
        have := congrArg List.reverse hu
        simpa [List.reverse_append] using this.symm
      have ht2 : List.dropWhile isJsSpace l = (c :: rest) ++ u.reverse := by
        rw [ht1,
          show (List.dropWhile isJsSpace (List.dropWhile isJsSpace l).reverse).reverse = jsTrim l from rfl,
          hj]
      refine dropWhile_head_not isJsSpace l c ?_
      rw [ht2]
      simp
    have hlast : ∀ c2, (c :: rest).getLast? = some c2 → isJsSpace c2 = false := by
      intro c2 h2
      have hrev : (jsTrim l).getLast? = some c2 := by rw [hj]; exact h2
      unfold jsTrim at hrev
      rw [List.getLast?_reverse] at hrev
      exact dropWhile_head_not isJsSpace _ c2 hrev
    obtain ⟨c2, hc2⟩ : ∃ c2, (c :: rest).getLast? = some c2 := by
      cases hgl : (c :: rest).getLast? with
      | none => simp at hgl
      | some x => exact ⟨x, rfl⟩
    simp only [isTrimmed, List.head?_cons, hc2, hhead, hlast c2 hc2]
    simp

/-- Characters of the bare fence. -/
theorem fenceChars : fence.toList = [backtick, backtick, backtick] := by decide

theorem replaceAllStr_nil (pat : String) : replaceAllStr pat [] = [] := by
  unfold replaceAllStr
  cases pat.toList with
  | nil => rfl
  | cons p ps => simp [stripSub]

theorem replaceAllStr_fence (l : List Char) :
    replaceAllStr fence l = stripSub backtick [backtick, backtick] l := by
  unfold replaceAllStr
  rw [fenceChars]


/-! ## Claim theorems -/

/-- Claim C1 (code_bug evidence).  The iframe's literal sandbox
configuration: script execution is permitted, but the `allow-same-origin`
token is present, so the sandbox is NOT same-origin-denied — a srcdoc frame
with `allow-scripts allow-same-origin` shares the host's origin and the
previewed code is not denied access to host-origin resources, contradicting
the claimed scripting-enabled, same-origin-denied policy. -/
theorem sandbox_same_origin_not_denied :
    permitsScripts = true ∧
    deniesSameOrigin = false ∧
    sandboxTokens.contains "allow-same-origin" = true ∧
    sandboxAttr = "allow-scripts allow-same-origin" := by
  refine ⟨by decide, by decide, by decide, rfl⟩

/-- Claim C2 (counterexample).  A preview cycle that succeeds ends with one
created and zero revoked blob-URL locators: the ephemeral module locator is
NOT released by the end of the cycle — `run` contains no
`URL.revokeObjectURL` call on any path. -/
theorem locator_not_released_at_cycle_end :
    (run envOk "pageA").outcome = RunOutcome.rendered ∧
    (run envOk "pageA").urlsCreated = 1 ∧
    (run envOk "pageA").urlsRevoked = 0 := by
  decide

/-- Claim C2 (amended).  Each cycle creates at most one locator and revokes
none; the locator stays live past the end of its own cycle.  Boundedness
still holds because at most one sandboxed document — and hence at most one
cycle's locator store — is alive at any time: after any event sequence the
number of live undisposed locators is at most 1, so it does not grow with
the number N of sequential cycles. -/
theorem live_locators_bounded :
    (∀ (env : Env) (code : String),
      (run env code).urlsCreated ≤ 1 ∧ (run env code).urlsRevoked = 0) ∧
    (∀ evs : List HostEvent, liveLocators (runEvents evs) ≤ 1) := by
  constructor
  · intro env code
    simp only [run, tryBody]
    cases hb : env.babelTransform (normalizeSource code) with
    | error e => simp [hb]
    | ok c =>
      cases hi : env.importModule c with
      | error e => simp [hb, hi]
      | ok m =>
        cases hm : m.defaultExport with
        | none => simp [hb, hi, hm]
        | some app =>
          cases hr : env.renderComponent app with
          | error e => simp [hb, hi, hm, hr]
          | ok u => simp [hb, hi, hm, hr]
  · intro evs
    suffices hgen : ∀ s, liveLocators s ≤ 1 → liveLocators (evs.foldl hostStep s) ≤ 1 by
      exact hgen initState (by simp [liveLocators, initState])
    induction evs with
    | nil => intro s hs; exact hs
    | cons e t ih =>
      intro s hs
      refine ih (hostStep s e) ?_
      cases e with
      | submit src =>
        cases hc : s.current with
        | none => simp [hostStep, hc, liveLocators]
        | some d =>
          by_cases hsrc : d.source = src
          · simpa [hostStep, hc, hsrc] using hs
          · simp [hostStep, hc, hsrc, liveLocators]
      | complete id out =>
        cases hc : s.current with
        | none => simpa [hostStep, hc] using hs
        | some d =>
          by_cases hid : d.docId = id
          · simp only [hostStep, hc, if_pos hid]
            simpa [liveLocators, hostStep, hc] using hs
          · simpa [hostStep, hc, hid] using hs

/-- Claim C3.  Whatever fails inside the guarded body — transpiler parse
failure, module load/evaluation failure, missing-export check, or mount
failure — `run` returns (it never rethrows to the host) with the document
body replaced by the diagnostic panel, which contains the underlying error
message text verbatim between the fixed panel prefix and suffix. -/
theorem failures_become_diagnostics (env : Env) (userCode e : String)
    (h : (tryBody env userCode).2 = Except.error e) :
    (run env userCode).outcome = RunOutcome.diagnostic (errorPanel e) ∧
    errorPanel e = panelPre ++ e ++ panelPost := by
  constructor
  · unfold run
    rcases htb : tryBody env userCode with ⟨info, res⟩
    rw [htb] at h
    simp at h
    subst h
    simp
  · rfl

/-- Claim C3 (witness).  A transpiler parse failure on syntactically invalid
input is caught and surfaced verbatim in the diagnostic panel. -/
theorem failures_become_diagnostics_w :
    (run envParse "pageA").outcome =
      RunOutcome.diagnostic (errorPanel "SyntaxError: Unexpected token (1:1)") ∧
    errorPanel "SyntaxError: Unexpected token (1:1)" =
      panelPre ++ "SyntaxError: Unexpected token (1:1)" ++ panelPost :=
  failures_become_diagnostics envParse "pageA" "SyntaxError: Unexpected token (1:1)" rfl

/-- Claim C4.  When the loaded module has no default export, the cycle ends
in the failed state: the diagnostic panel carries the missing-default-export
message, which contains the phrase "default export", and the mount step is
never reached. -/
theorem missing_default_export_fails (env : Env) (userCode compiled : String) (m : JsModule)
    (h1 : env.babelTransform (normalizeSource userCode) = Except.ok compiled)
    (h2 : env.importModule compiled = Except.ok m)
    (h3 : m.defaultExport = none) :
    (run env userCode).outcome = RunOutcome.diagnostic (errorPanel missingDefaultExportMsg) ∧
    (run env userCode).mountAttempted = false ∧
    occursIn ("default export".toList) missingDefaultExportMsg.toList = true := by
  refine ⟨?_, ?_, by decide⟩ <;>
  · simp only [run, tryBody, h1, h2, h3]

/-- Claim C4 (witness).  A module without a default export fails with the
"default export" diagnostic and no mount attempt. -/
theorem missing_default_export_fails_w :
    (run envNoDefault "pageA").outcome =
      RunOutcome.diagnostic (errorPanel missingDefaultExportMsg) ∧
    (run envNoDefault "pageA").mountAttempted = false ∧
    occursIn ("default export".toList) missingDefaultExportMsg.toList = true :=
  missing_default_export_fails envNoDefault "pageA" (normalizeSource "pageA") ⟨none⟩ rfl rfl rfl

/-- Claim C5.  Submitting B while A's cycle is still in flight: after the
two submissions the displayed document runs B with nothing mounted yet and
an identity different from A's document; the late arrival of A's result is
a no-op (discarded, not raced into the displayed document), B's completion
mounts B's output, and a still-later arrival of A's result does not
overwrite it — latest write wins, keyed on source identity rather than
completion order. -/
theorem stale_cycle_discarded (evs : List HostEvent) (A B outA outB : String)
    (hAB : A ≠ B) :
    currentSource (hostStep (runEvents evs) (HostEvent.submit A)) = some A ∧
    currentSource (hostStep (hostStep (runEvents evs) (HostEvent.submit A)) (HostEvent.submit B)) = some B ∧
    currentMounted (hostStep (hostStep (runEvents evs) (HostEvent.submit A)) (HostEvent.submit B)) = some none ∧
    (currentDocId (hostStep (runEvents evs) (HostEvent.submit A))).getD 0 ≠
      (currentDocId (hostStep (hostStep (runEvents evs) (HostEvent.submit A)) (HostEvent.submit B))).getD 0 ∧
    hostStep (hostStep (hostStep (runEvents evs) (HostEvent.submit A)) (HostEvent.submit B))
        (HostEvent.complete ((currentDocId (hostStep (runEvents evs) (HostEvent.submit A))).getD 0) outA) =
      hostStep (hostStep (runEvents evs) (HostEvent.submit A)) (HostEvent.submit B) ∧
    currentMounted (hostStep (hostStep (hostStep (runEvents evs) (HostEvent.submit A)) (HostEvent.submit B))
        (HostEvent.complete ((currentDocId (hostStep (hostStep (runEvents evs) (HostEvent.submit A)) (HostEvent.submit B))).getD 0) outB)) =
      some (some outB) ∧
    currentSource (hostStep (hostStep (hostStep (runEvents evs) (HostEvent.submit A)) (HostEvent.submit B))
        (HostEvent.complete ((currentDocId (hostStep (hostStep (runEvents evs) (HostEvent.submit A)) (HostEvent.submit B))).getD 0) outB)) =
      some B ∧
    hostStep (hostStep (hostStep (hostStep (runEvents evs) (HostEvent.submit A)) (HostEvent.submit B))
        (HostEvent.complete ((currentDocId (hostStep (hostStep (runEvents evs) (HostEvent.submit A)) (HostEvent.submit B))).getD 0) outB))
        (HostEvent.complete ((currentDocId (hostStep (runEvents evs) (HostEvent.submit A))).getD 0) outA) =
      hostStep (hostStep (hostStep (runEvents evs) (HostEvent.submit A)) (HostEvent.submit B))
        (HostEvent.complete ((currentDocId (hostStep (hostStep (runEvents evs) (HostEvent.submit A)) (HostEvent.submit B))).getD 0) outB) := by
  obtain ⟨n1, dA, h1, hAsrc, hAlt⟩ :=
    submit_shape (runEvents evs) A (docIdBound_runEvents evs)
  have hBsrc : ¬ dA.source = B := by rw [hAsrc]; exact hAB
  have h2 : hostStep (hostStep (runEvents evs) (HostEvent.submit A)) (HostEvent.submit B) =
      ⟨n1 + 1, some ⟨n1, B, none, 1⟩⟩ := by
    rw [h1]; simp [hostStep, hBsrc]
  have haId : (currentDocId (hostStep (runEvents evs) (HostEvent.submit A))).getD 0 = dA.docId := by
    rw [h1]; simp [currentDocId]
  have hbId : (currentDocId (hostStep (hostStep (runEvents evs) (HostEvent.submit A)) (HostEvent.submit B))).getD 0 = n1 := by
    rw [h2]; simp [currentDocId]
  have hne : ¬ (n1 = dA.docId) := by omega
  have h3 : hostStep (hostStep (hostStep (runEvents evs) (HostEvent.submit A)) (HostEvent.submit B))
      (HostEvent.complete ((currentDocId (hostStep (hostStep (runEvents evs) (HostEvent.submit A)) (HostEvent.submit B))).getD 0) outB) =
      ⟨n1 + 1, some ⟨n1, B, some outB, 1⟩⟩ := by
    rw [hbId, h2]; simp [hostStep]
  refine ⟨?_, ?_, ?_, ?_, ?_, ?_, ?_, ?_⟩
  · rw [h1]; simp [currentSource, hAsrc]
  · rw [h2]; simp [currentSource]
  · rw [h2]; simp [currentMounted]
  · rw [haId, hbId]; omega
  · rw [haId, h2]; simp [hostStep, hne]
  · rw [h3]; simp [currentMounted]
  · rw [h3]; simp [currentSource]
  · rw [h3, haId]; simp [hostStep, hne]

/-- Claim C5 (witness).  Concrete supersession run: submit `"pageA"`, then
`"pageB"` before A's cycle completes; A's late completion is discarded and
only B's output is ever mounted in the displayed document. -/
theorem stale_cycle_discarded_w :
    currentSource (hostStep (runEvents []) (HostEvent.submit "pageA")) = some "pageA" ∧
    currentSource (hostStep (hostStep (runEvents []) (HostEvent.submit "pageA")) (HostEvent.submit "pageB")) = some "pageB" ∧
    currentMounted (hostStep (hostStep (runEvents []) (HostEvent.submit "pageA")) (HostEvent.submit "pageB")) = some none ∧
    (currentDocId (hostStep (runEvents []) (HostEvent.submit "pageA"))).getD 0 ≠
      (currentDocId (hostStep (hostStep (runEvents []) (HostEvent.submit "pageA")) (HostEvent.submit "pageB"))).getD 0 ∧
    hostStep (hostStep (hostStep (runEvents []) (HostEvent.submit "pageA")) (HostEvent.submit "pageB"))
        (HostEvent.complete ((currentDocId (hostStep (runEvents []) (HostEvent.submit "pageA"))).getD 0) "outA") =
      hostStep (hostStep (runEvents []) (HostEvent.submit "pageA")) (HostEvent.submit "pageB") ∧
    currentMounted (hostStep (hostStep (hostStep (runEvents []) (HostEvent.submit "pageA")) (HostEvent.submit "pageB"))
        (HostEvent.complete ((currentDocId (hostStep (hostStep (runEvents []) (HostEvent.submit "pageA")) (HostEvent.submit "pageB"))).getD 0) "outB")) =
      some (some "outB") ∧
    currentSource (hostStep (hostStep (hostStep (runEvents []) (HostEvent.submit "pageA")) (HostEvent.submit "pageB"))
        (HostEvent.complete ((currentDocId (hostStep (hostStep (runEvents []) (HostEvent.submit "pageA")) (HostEvent.submit "pageB"))).getD 0) "outB")) =
      some "pageB" ∧
    hostStep (hostStep (hostStep (hostStep (runEvents []) (HostEvent.submit "pageA")) (HostEvent.submit "pageB"))
        (HostEvent.complete ((currentDocId (hostStep (hostStep (runEvents []) (HostEvent.submit "pageA")) (HostEvent.submit "pageB"))).getD 0) "outB"))
        (HostEvent.complete ((currentDocId (hostStep (runEvents []) (HostEvent.submit "pageA"))).getD 0) "outA") =
      hostStep (hostStep (hostStep (runEvents []) (HostEvent.submit "pageA")) (HostEvent.submit "pageB"))
        (HostEvent.complete ((currentDocId (hostStep (hostStep (runEvents []) (HostEvent.submit "pageA")) (HostEvent.submit "pageB"))).getD 0) "outB") :=
  stale_cycle_discarded [] "pageA" "pageB" "outA" "outB" (by decide)

/-- Claim C6 (counterexample).  Submitting the same SourceDocument twice in
sequence does NOT produce two structurally independent RenderTargets: the
second submission is a no-op (the effect is keyed on the source value), only
one document was ever allocated, and observable state — here the mounted
output of the first preview — carries over unchanged. -/
theorem resubmit_same_source_no_rebuild :
    hostStep (runEvents [HostEvent.submit "pageA", HostEvent.complete 0 "outA"])
        (HostEvent.submit "pageA") =
      runEvents [HostEvent.submit "pageA", HostEvent.complete 0 "outA"] ∧
    currentMounted (hostStep (runEvents [HostEvent.submit "pageA", HostEvent.complete 0 "outA"])
        (HostEvent.submit "pageA")) = some (some "outA") ∧
    (hostStep (runEvents [HostEvent.submit "pageA", HostEvent.complete 0 "outA"])
        (HostEvent.submit "pageA")).nextId = 1 := by
  decide

/-- Claim C6 (amended).  Submitting a source different from the one the live
document runs rebuilds the Isolation Boundary from scratch — a fresh
RenderTarget with a new identity and empty mount state, structurally
independent of the previous one; submitting the identical source string
again is a no-op that keeps the existing RenderTarget and all its state. -/
theorem rebuild_on_changed_source (evs : List HostEvent) (src : String) :
    (currentSource (runEvents evs) = some src →
      hostStep (runEvents evs) (HostEvent.submit src) = runEvents evs) ∧
    (currentSource (runEvents evs) ≠ some src →
      currentMounted (hostStep (runEvents evs) (HostEvent.submit src)) = some none ∧
      currentDocId (hostStep (runEvents evs) (HostEvent.submit src)) = some (runEvents evs).nextId ∧
      currentDocId (hostStep (runEvents evs) (HostEvent.submit src)) ≠ currentDocId (runEvents evs)) := by
  constructor
  · intro h
    cases hc : (runEvents evs).current with
    | none => simp [currentSource, hc] at h
    | some d =>
      have hd : d.source = src := by simpa [currentSource, hc] using h
      simp [hostStep, hc, hd]
  · intro h
    rw [hostStep_submit_new (runEvents evs) src h]
    refine ⟨by simp [currentMounted], by simp [currentDocId], ?_⟩
    cases hc : (runEvents evs).current with
    | none => simp [currentDocId, hc]
    | some d =>
      have := docIdBound_runEvents evs d hc
      simp only [currentDocId, hc, Option.map_some]
      intro he
      simp at he
      omega

/-- Claim C6 (amended, witness).  Resubmitting `"pageA"` is a no-op; a
changed source `"pageB"` gets a fresh, unmounted document with a new
identity. -/
theorem rebuild_on_changed_source_w :
    hostStep (runEvents [HostEvent.submit "pageA"]) (HostEvent.submit "pageA") =
      runEvents [HostEvent.submit "pageA"] ∧
    (currentMounted (hostStep (runEvents [HostEvent.submit "pageA"]) (HostEvent.submit "pageB")) = some none ∧
     currentDocId (hostStep (runEvents [HostEvent.submit "pageA"]) (HostEvent.submit "pageB")) =
       some (runEvents [HostEvent.submit "pageA"]).nextId ∧
     currentDocId (hostStep (runEvents [HostEvent.submit "pageA"]) (HostEvent.submit "pageB")) ≠
       currentDocId (runEvents [HostEvent.submit "pageA"])) :=
  ⟨(rebuild_on_changed_source [HostEvent.submit "pageA"] "pageA").1 (by decide),
   (rebuild_on_changed_source [HostEvent.submit "pageA"] "pageB").2 (by decide)⟩

/-- Claim C7.  The normalizer is a total function: when the import pattern
already matches it returns the input unchanged, otherwise it prepends the
canonical import statement to the otherwise-unchanged input; in both cases
the output matches the runtime-binding import pattern. -/
theorem normalizer_never_fails (s : String) :
    (searchReact s.toList = true → normalizeSource s = s) ∧
    (searchReact s.toList = false → normalizeSource s = reactImportStmt ++ s) ∧
    searchReact (normalizeSource s).toList = true := by
  have hpos : searchReact s.toList = true → normalizeSource s = s := by
    intro h
    unfold normalizeSource
    rw [if_pos h]
  have hneg : searchReact s.toList = false → normalizeSource s = reactImportStmt ++ s := by
    intro h
    have h' : searchReact s.data = false := h
    unfold normalizeSource
    rw [if_neg (by simp [h'])]
  refine ⟨hpos, hneg, ?_⟩
  by_cases h : searchReact s.toList = true
  · rw [hpos h]; exact h
  · rw [hneg (by simpa using h)]
    rw [show (reactImportStmt ++ s).toList = reactImportStmt.toList ++ s.toList from
      String.data_append reactImportStmt s]
    exact searchReact_prepend s.toList

/-- Claim C7 (witness).  A source without the pattern gets the canonical
React import prepended, and the result references the runtime binding. -/
theorem normalizer_never_fails_w :
    normalizeSource "const x = 1;" = reactImportStmt ++ "const x = 1;" ∧
    searchReact (normalizeSource "const x = 1;").toList = true :=
  ⟨(normalizer_never_fails "const x = 1;").2.1 (by decide),
   (normalizer_never_fails "const x = 1;").2.2⟩

/-- Claim C8.  Detection is a pure substring regex test: the input is left
unchanged exactly when `/import\s+(\*\s+as\s+)?React/` matches somewhere in
its text — including inside a line comment, inside a string literal, and as
a prefix of the longer identifier `ReactDOM` (cases in which the name
`React` may never actually be bound) — and the import is prepended exactly
when the pattern is absent. -/
theorem react_detection_is_substring_test :
    (∀ s : String, normalizeSource s = s ↔ searchReact s.toList = true) ∧
    normalizeSource "// import React is only mentioned in a comment" =
      "// import React is only mentioned in a comment" ∧
    normalizeSource "const s = \"import React\"; export default 1" =
      "const s = \"import React\"; export default 1" ∧
    normalizeSource "import ReactDOM from \x27react-dom\x27;" =
      "import ReactDOM from \x27react-dom\x27;" ∧
    normalizeSource "export default 1" = reactImportStmt ++ "export default 1" := by
  refine ⟨fun s => ?_, by decide, by decide, by decide, by decide⟩
  constructor
  · intro h
    by_cases hq : searchReact s.toList = true
    · exact hq
    · exfalso
      rw [normalizeSource, if_neg hq] at h
      have hlen := congrArg String.length h
      rw [String.length_append] at hlen
      have hsl : reactImportStmt.length = 27 := by decide
      omega
  · intro h
    unfold normalizeSource
    rw [if_pos h]

/-- Claim C9.  The code string both service functions return contains no
occurrence of three consecutive backticks (all markdown fence markers are
removed), is trimmed of leading and trailing whitespace, and is the empty
string when the model text is missing or empty. -/
theorem clean_code_no_fences_trimmed (t : Option String) :
    occursIn fence.toList (extractCode t).toList = false ∧
    isTrimmed (extractCode t).toList = true ∧
    extractCode none = "" ∧
    extractCode (some "") = "" := by
  refine ⟨?_, ?_, ?_, ?_⟩
  · show occursIn fence.toList (cleanModelText _).toList = false
    unfold cleanModelText
    rw [replaceAllStr_fence, fenceChars]
    show occursIn _ (jsTrim _) = false
    by_contra hcon
    simp only [Bool.not_eq_false] at hcon
    have hup := occursIn_jsTrim _ _ hcon
    rw [stripSub_noFence] at hup
    exact Bool.false_ne_true hup
  · show isTrimmed (cleanModelText _).toList = true
    unfold cleanModelText
    exact isTrimmed_jsTrim _
  · show cleanModelText "" = ""
    unfold cleanModelText
    rw [show ("" : String).toList = [] from rfl, replaceAllStr_nil, replaceAllStr_nil,
      replaceAllStr_nil]
    rfl
  · show cleanModelText "" = ""
    unfold cleanModelText
    rw [show ("" : String).toList = [] from rfl, replaceAllStr_nil, replaceAllStr_nil,
      replaceAllStr_nil]
    rfl

/-- Claim C10.  When `refineCode` rejects, `handleRefine` leaves the
generated code, the refinement prompt and the uploaded image untouched and
sets the status back to `COMPLETED`, so the previous successful preview
remains available. -/
theorem refine_failure_preserves_state (s : AppState) (err : String)
    (h : (jsTrim s.refinementPrompt.toList).isEmpty = false) :
    (handleRefine s (Except.error err)).generatedCode = s.generatedCode ∧
    (handleRefine s (Except.error err)).refinementPrompt = s.refinementPrompt ∧
    (handleRefine s (Except.error err)).status = AppStatus.COMPLETED ∧
    (handleRefine s (Except.error err)).uploadedImage = s.uploadedImage := by
  have hne : ¬ (jsTrim s.refinementPrompt.data = []) := by simpa [String.toList] using h
  simp [handleRefine, hne]

/-- Claim C10 (witness).  A failed refinement from a completed state keeps
the code and prompt and returns to `COMPLETED`. -/
theorem refine_failure_preserves_state_w :
    (handleRefine ⟨AppStatus.COMPLETED, "code1", "make it blue", none⟩ (Except.error "boom")).generatedCode = "code1" ∧
    (handleRefine ⟨AppStatus.COMPLETED, "code1", "make it blue", none⟩ (Except.error "boom")).refinementPrompt = "make it blue" ∧
    (handleRefine ⟨AppStatus.COMPLETED, "code1", "make it blue", none⟩ (Except.error "boom")).status = AppStatus.COMPLETED ∧
    (handleRefine ⟨AppStatus.COMPLETED, "code1", "make it blue", none⟩ (Except.error "boom")).uploadedImage = none :=
  refine_failure_preserves_state ⟨AppStatus.COMPLETED, "code1", "make it blue", none⟩ "boom" (by decide)

end Image2Code
